import Mathlib

/-!
Shallow embedding of the request-parameter extraction and response-shaping
pipeline of the `koa-graphql-typescript` middleware: body decoding
(`readBody`), body interpretation (`parseBody`), parameter resolution
(`getGraphQLParams`), the operation pipeline (`parseQuery`) and the
response post-processing of `graphqlHTTP`.

JavaScript runtime values that flow through the untyped parts of the code
(pre-parsed bodies, JSON-decoded values) are modelled by the inductive
type `Js`; Node `Buffer` values get their own constructor because
`parseBody` tests `body instanceof Buffer`.
-/

namespace KoaGraphql

/-- A JavaScript runtime value as far as the middleware inspects one:
`typeof` classification, truthiness, property lookup and `instanceof
Buffer`. Numbers are kept exactly as decimal `mantissa × 10 ^ exponent`
pairs, which is enough to model every `typeof`/truthiness test the code
performs. There is no `undefined` constructor: an absent value is
`Option.none` wherever the code can meet `undefined`. -/
inductive Js where
  | null
  | bool (b : Bool)
  | num (mantissa : Int) (exponent : Int)
  | str (s : String)
  | arr (elems : List Js)
  | obj (fields : List (String × Js))
  | buffer (bytes : List Nat)

/-- JavaScript `typeof` for the values of `Js`; note `typeof null`,
`typeof []` and `typeof Buffer` are all `"object"`. -/
def typeofJs : Js → String
  | .null => "object"
  | .bool _ => "boolean"
  | .num _ _ => "number"
  | .str _ => "string"
  | .arr _ => "object"
  | .obj _ => "object"
  | .buffer _ => "object"

/-- JavaScript truthiness of a `Js` value. -/
def jsTruthy : Js → Bool
  | .null => false
  | .bool b => b
  | .num m _ => m ≠ 0
  | .str s => s ≠ ""
  | .arr _ => true
  | .obj _ => true
  | .buffer _ => true

/-- Property lookup `m[k]` on a JavaScript object modelled as a field list
with unique keys; `none` models `undefined`. -/
def getField (fields : List (String × Js)) (k : String) : Option Js :=
  (fields.find? (fun p => p.1 = k)).map (fun p => p.2)

/-- The fields a value contributes when the code casts it to
`Record<string, unknown>`: an object gives its fields; an array or any
other value has none of the string properties the middleware reads. -/
def objFields : Js → List (String × Js)
  | .obj fs => fs
  | _ => []

/-- `URLSearchParams.get` over the parsed query-string pairs: the first
value bound to the key, or `none` when the key is absent (the
query-string parsing itself is a platform collaborator; requests carry
the parsed pair list). -/
def sget (pairs : List (String × String)) (k : String) : Option String :=
  (pairs.find? (fun p => p.1 = k)).map (fun p => p.2)

/-! ### A model of JavaScript `JSON.parse`

`JSON.parse` is a platform builtin (an external collaborator of the
middleware), modelled here by a total fuel-based recursive-descent parser
of the RFC 8259 grammar, which is what the builtin implements: strict
numbers (no leading zeros, no bare `.` or trailing `.`), the eight
single-character escapes plus `\uXXXX`, no raw control characters inside
strings, and only space/tab/line-feed/carriage-return as whitespace.
Numbers are kept exactly as `mantissa × 10 ^ exponent`, so no floating
point enters the model. A lone `\uXXXX` surrogate (representable in a
JavaScript string but not in a Lean `Char`) becomes U+FFFD. -/

/-- JSON insignificant whitespace per RFC 8259: space, tab, line feed,
carriage return (also the character class of the `jsonObjRegex` in
`parse-body`). -/
def isJsonWs : Char → Bool
  | ' ' | '\t' | '\n' | '\r' => true
  | _ => false

/-- Drop leading JSON whitespace. -/
def dropWs (cs : List Char) : List Char :=
  match cs with
  | c :: rest => if isJsonWs c then dropWs rest else cs
  | [] => cs

def isDigitCh (c : Char) : Bool :=
  48 ≤ c.toNat && c.toNat ≤ 57

/-- Split off a maximal digit run. -/
def grabDigits (cs : List Char) : List Char × List Char :=
  match cs with
  | [] => ([], [])
  | c :: rest =>
    if ¬ isDigitCh c then ([], cs)
    else
      match grabDigits rest with
      | (ds, tail) => (c :: ds, tail)

/-- The natural number named by a digit run, as an `Int`. -/
def digitsVal (ds : List Char) : Int :=
  Int.ofNat (ds.foldl (fun acc c => 10 * acc + (c.toNat - 48)) 0)

/-- The value of one hexadecimal digit. -/
def hexDigitVal (c : Char) : Option Nat :=
  let n := c.toNat
  if 48 ≤ n ∧ n ≤ 57 then some (n - 48)
  else if 97 ≤ n ∧ n ≤ 102 then some (n - 87)
  else if 65 ≤ n ∧ n ≤ 70 then some (n - 55)
  else none

/-- The value of a fixed-width hexadecimal digit run (the four digits of
a `\uXXXX` escape). -/
def hexQuad (ds : List Char) : Option Nat :=
  ds.foldl
    (fun acc c => do
      let sofar ← acc
      let v ← hexDigitVal c
      pure (16 * sofar + v))
    (some 0)

/-- A code unit from a `\uXXXX` escape as a `Char`; surrogate halves are
not valid scalar values, so they fall back to U+FFFD. -/
def codeUnitChar (n : Nat) : Char :=
  if n.isValidChar then Char.ofNat n else '�'

/-- The single-character escapes of the JSON grammar, as a lookup
table. -/
def escapeChar (e : Char) : Option Char :=
  List.lookup e
    [('"', '"'), ('\\', '\\'), ('/', '/'), ('b', Char.ofNat 8), ('f', Char.ofNat 12),
      ('n', '\n'), ('r', '\r'), ('t', '\t')]

/-- Body of a JSON string after its opening quote; rejects raw control
characters and unknown escapes, pairs surrogate escapes. -/
def stringBody (acc : List Char) : List Char → Option (String × List Char)
  | '"' :: rest => some (String.mk acc.reverse, rest)
  | '\\' :: 'u' :: h1 :: h2 :: h3 :: h4 :: rest =>
    match hexQuad [h1, h2, h3, h4] with
    | none => none
    | some hi =>
      if 0xd800 ≤ hi ∧ hi ≤ 0xdbff then
        match rest with
        | '\\' :: 'u' :: g1 :: g2 :: g3 :: g4 :: rest' =>
          match hexQuad [g1, g2, g3, g4] with
          | none => none
          | some lo =>
            if 0xdc00 ≤ lo ∧ lo ≤ 0xdfff then
              stringBody
                (codeUnitChar (0x10000 + (hi - 0xd800) * 0x400 + (lo - 0xdc00)) :: acc) rest'
            else stringBody (codeUnitChar lo :: codeUnitChar hi :: acc) rest'
        | other => stringBody (codeUnitChar hi :: acc) other
      else stringBody (codeUnitChar hi :: acc) rest
  | '\\' :: e :: rest =>
    match escapeChar e with
    | some ch => stringBody (ch :: acc) rest
    | none => none
  | c :: rest => if c.toNat < 0x20 then none else stringBody (c :: acc) rest
  | [] => none

/-- Does a digit run carry a forbidden leading zero (`0` followed by
more digits)? -/
def leadingZero : List Char → Bool
  | '0' :: _ :: _ => true
  | _ => false

/-- The optional `frac` production: `.` followed by one-or-more digits
(`none` on a bare `.`), or nothing. -/
def fracToken : List Char → Option (List Char × List Char)
  | '.' :: tl =>
    match grabDigits tl with
    | ([], _) => none
    | (ds, rest) => some (ds, rest)
  | cs => some ([], cs)

/-- The optional `exp` production: `e`/`E`, an optional sign, and
one-or-more digits (`none` when the digits are missing); yields the
signed decimal exponent. -/
def expToken : List Char → Option (Int × List Char)
  | [] => some (0, [])
  | e :: tl =>
    if e = 'e' ∨ e = 'E' then
      let (sign, tl2) : Int × List Char :=
        match tl with
        | '+' :: u => (1, u)
        | '-' :: u => (-1, u)
        | _ => (1, tl)
      match grabDigits tl2 with
      | ([], _) => none
      | (ds, rest) => some (sign * digitsVal ds, rest)
    else some (0, e :: tl)

/-- A JSON number starting at the given characters: strict RFC 8259
grammar (optional minus, an integer part with no leading zeros, then the
`frac` and `exp` productions), returned as an exact decimal
mantissa/exponent pair. -/
def numberToken (cs : List Char) : Option ((Int × Int) × List Char) :=
  let (isNeg, afterSign) :=
    match cs with
    | '-' :: tl => (true, tl)
    | _ => (false, cs)
  match grabDigits afterSign with
  | ([], _) => none
  | (whole, afterWhole) =>
    if leadingZero whole then none
    else do
      let (fracDs, afterFrac) ← fracToken afterWhole
      let (e, rest) ← expToken afterFrac
      let digits := digitsVal (whole ++ fracDs)
      some ((if isNeg then -digits else digits, e - Int.ofNat fracDs.length), rest)

/-- Prepend a parsed object member to the (already deduplicated) members
to its right; as with `JSON.parse`, on a duplicate key the later value
wins while the key keeps its first position. -/
def consMember (k : String) (v : Js) (fs : List (String × Js)) : List (String × Js) :=
  match getField fs k with
  | some v' => (k, v') :: fs.filter (fun p => p.1 ≠ k)
  | none => (k, v) :: fs

mutual

/-- One JSON value (fuel-based so totality is structural), dispatching
on the first significant character. -/
def jsonVal : Nat → List Char → Option (Js × List Char)
  | 0, _ => none
  | fuel + 1, cs =>
    match dropWs cs with
    | [] => none
    | c :: tl =>
      if c = '"' then do
        let (s, rest) ← stringBody [] tl
        some (.str s, rest)
      else if c = '[' then
        match dropWs tl with
        | ']' :: rest => some (.arr [], rest)
        | inner => do
          let (vs, rest) ← jsonItems fuel inner
          some (.arr vs, rest)
      else if c = '{' then
        match dropWs tl with
        | '}' :: rest => some (.obj [], rest)
        | inner => do
          let (fs, rest) ← jsonMembers fuel inner
          some (.obj fs, rest)
      else if c = 'n' then
        match tl with
        | 'u' :: 'l' :: 'l' :: rest => some (.null, rest)
        | _ => none
      else if c = 't' then
        match tl with
        | 'r' :: 'u' :: 'e' :: rest => some (.bool true, rest)
        | _ => none
      else if c = 'f' then
        match tl with
        | 'a' :: 'l' :: 's' :: 'e' :: rest => some (.bool false, rest)
        | _ => none
      else do
        let ((m, e), rest) ← numberToken (c :: tl)
        some (.num m e, rest)

/-- One-or-more comma-separated array elements up to `]`. -/
def jsonItems : Nat → List Char → Option (List Js × List Char)
  | 0, _ => none
  | fuel + 1, cs => do
    let (v, afterV) ← jsonVal fuel cs
    match dropWs afterV with
    | ']' :: rest => some ([v], rest)
    | ',' :: rest => do
      let (vs, tail) ← jsonItems fuel rest
      some (v :: vs, tail)
    | _ => none

/-- One-or-more `"key": value` members up to `}`, later duplicate keys
winning. -/
def jsonMembers : Nat → List Char → Option (List (String × Js) × List Char)
  | 0, _ => none
  | fuel + 1, cs =>
    match dropWs cs with
    | '"' :: afterQuote => do
      let (k, afterKey) ← stringBody [] afterQuote
      match dropWs afterKey with
      | ':' :: afterColon => do
        let (v, afterVal) ← jsonVal fuel afterColon
        match dropWs afterVal with
        | '}' :: rest => some ([(k, v)], rest)
        | ',' :: rest => do
          let (fs, tail) ← jsonMembers fuel rest
          some (consMember k v fs, tail)
        | _ => none
      | _ => none
    | _ => none

end

/-- Model of JavaScript `JSON.parse`: one value with nothing but
whitespace around it; `none` is the thrown `SyntaxError`. -/
def jsonParse (s : String) : Option Js :=
  match jsonVal (s.length + 1) s.toList with
  | none => none
  | some (v, rest) =>
    match dropWs rest with
    | [] => some v
    | _ => none

/-! ### String utilities

The JavaScript string methods the middleware calls (`toLowerCase`,
`toUpperCase`, `startsWith`, `trim`) and the separator splitting done by
its header/query parsing are modelled directly on character lists, so
every definition evaluates by kernel reduction. -/

/-- JavaScript `toLowerCase` (character-wise). -/
def sToLower (s : String) : String := String.mk (s.toList.map Char.toLower)

/-- JavaScript `toUpperCase` (character-wise). -/
def sToUpper (s : String) : String := String.mk (s.toList.map Char.toUpper)

/-- JavaScript `s.startsWith(pre)`. -/
def sStartsWith (s pre : String) : Bool := pre.toList.isPrefixOf s.toList

/-- JavaScript `s.endsWith(suf)`. -/
def sEndsWith (s suf : String) : Bool := suf.toList.isSuffixOf s.toList

/-- Strip leading and trailing whitespace. -/
def sTrim (s : String) : String :=
  String.mk (((s.toList.dropWhile Char.isWhitespace).reverse.dropWhile
    Char.isWhitespace).reverse)

/-- Split a character list at every occurrence of a separator character
(semantics of `String.split` on a one-character separator: n separators
give n+1 pieces, possibly empty). -/
def splitOnChar (sep : Char) : List Char → List (List Char)
  | [] => [[]]
  | c :: cs =>
    let r := splitOnChar sep cs
    if c = sep then [] :: r
    else
      match r with
      | h :: t => (c :: h) :: t
      | [] => [[c]]

/-- String-level wrapper of `splitOnChar`. -/
def sSplitOnChar (sep : Char) (s : String) : List String :=
  (splitOnChar sep s.toList).map String.mk

/-! ### Content-Type parsing, the error taxonomy, and `readBody` -/

/-- A parsed `Content-Type` header: lowercase media type plus parameters
(as produced by the `content-type` npm package; modelled for well-formed
header values). -/
structure ParsedMediaType where
  type : String
  parameters : List (String × String)

/-- Strip one pair of surrounding double quotes from a parameter value. -/
def stripQuotes (s : String) : String :=
  if s.length ≥ 2 ∧ sStartsWith s "\"" ∧ sEndsWith s "\"" then
    (s.drop 1).dropRight 1
  else s

/-- Model of `contentType.parse` on the header text: the media type is
the part before the first `;`, trimmed and lowercased; each following
`key=value` part becomes a parameter with lowercased key. -/
def contentTypeParse (header : String) : ParsedMediaType :=
  match sSplitOnChar ';' header with
  | [] => { type := "", parameters := [] }
  | t :: rest =>
    { type := sToLower (sTrim t)
      parameters := rest.filterMap (fun part =>
        match sSplitOnChar '=' part with
        | [] => none
        | [_] => none
        | k :: vs => some (sToLower (sTrim k), stripQuotes (sTrim (String.intercalate "=" vs)))) }

/-- The typed failures thrown (as `http-errors`) by the embedded
pipeline, each carrying exactly the data the code puts in the error. -/
inductive HErr where
  /-- 415: charset does not start with `utf-` (argument already uppercased). -/
  | unsupportedCharset (c : String)
  /-- 415: unrecognized `Content-Encoding` value. -/
  | unsupportedEncoding (e : String)
  /-- 400: the raw-body reader reported `encoding.unsupported`. -/
  | charsetMismatch (c : String)
  /-- 400: oversized / truncated / otherwise unreadable body. -/
  | invalidBody (msg : String)
  /-- 400: `POST body sent invalid JSON.` -/
  | malformedBody
  /-- 400: `Variables are invalid JSON.` -/
  | invalidVariables
  /-- 400: `Must provide query string.` -/
  | noQuery
  /-- 405, with the value set for the `Allow` header. -/
  | methodNotAllowed (allow : String) (msg : String)
deriving DecidableEq

/-- The HTTP status carried by each thrown failure. -/
def HErr.status : HErr → Nat
  | .unsupportedCharset _ => 415
  | .unsupportedEncoding _ => 415
  | .methodNotAllowed _ _ => 405
  | _ => 400

/-- The message text of each thrown failure, as the code formats it. -/
def HErr.message : HErr → String
  | .unsupportedCharset c => "Unsupported charset \"" ++ c ++ "\"."
  | .unsupportedEncoding e => "Unsupported content-encoding \"" ++ e ++ "\"."
  | .charsetMismatch c => "Unsupported charset \"" ++ c ++ "\"."
  | .invalidBody m => "Invalid body: " ++ m ++ "."
  | .malformedBody => "POST body sent invalid JSON."
  | .invalidVariables => "Variables are invalid JSON."
  | .noQuery => "Must provide query string."
  | .methodNotAllowed _ m => m

/-- Failures of the external `raw-body` reader (`getBody`): a charset it
cannot decode (`encoding.unsupported`), or any other read failure
(limit exceeded, truncation, ...). -/
inductive GetBodyErr where
  | encodingUnsupported
  | failure (msg : String)

/-- The platform collaborator that drains the (possibly decompressed)
request stream: it receives the resolved content-encoding (selecting the
stream `decompressed` built), and the options `readBody` passes —
charset, `Content-Length` hint, and byte limit. -/
def GetBody : Type :=
  String → String → Option String → Nat → Except GetBodyErr String

/-- The charset `readBody` resolves from the `Content-Type` parameters:
lowercased, defaulting to `utf-8` when absent. -/
def resolvedCharset (typeInfo : ParsedMediaType) : String :=
  ((sget typeInfo.parameters "charset").map sToLower).getD "utf-8"

/-- The `try { return await getBody(...) } catch` of `readBody`: drain
the stream with a 100 KiB limit and re-tag the reader's failures — an
`encoding.unsupported` report becomes the 400 charset-mismatch error,
anything else the 400 invalid-body error. -/
def readBodyStream (getB : GetBody) (encoding charset : String)
    (length : Option String) : Except HErr String :=
  match getB encoding charset length (100 * 1024) with
  | .ok s => .ok s
  | .error .encodingUnsupported => .error (.charsetMismatch (sToUpper charset))
  | .error (.failure m) => .error (.invalidBody m)

/-- Embedding of `readBody` (`parse-body.ts`): resolve the charset
(default `utf-8`, must start with `utf-`), resolve the content-encoding
(default `identity`; only `identity`/`deflate`/`gzip` accepted, checked
by `decompressed`), then drain the stream through `getBody` (the
`Content-Length` hint is passed only for `identity`). -/
def readBody (getB : GetBody) (headers : List (String × String))
    (typeInfo : ParsedMediaType) : Except HErr String :=
  let charset := resolvedCharset typeInfo
  if ¬ sStartsWith charset "utf-" then
    .error (.unsupportedCharset (sToUpper charset))
  else
    let encoding := match sget headers "content-encoding" with
      | some s => sToLower s
      | none => "identity"
    if encoding = "identity" ∨ encoding = "deflate" ∨ encoding = "gzip" then
      let length := if encoding = "identity" then sget headers "content-length" else none
      readBodyStream getB encoding charset length
    else .error (.unsupportedEncoding encoding)

/-! ### `querystring.parse` and `parseBody` -/

/-- Byte-level percent/plus decoding as Node's `querystring` unescape
does it (UTF-8 recombination of multi-byte sequences elided; no claim
depends on it). -/
def qsDecodeChars : List Char → List Char
  | '+' :: rest => ' ' :: qsDecodeChars rest
  | '%' :: a :: b :: rest =>
    match hexDigitVal a, hexDigitVal b with
    | some x, some y => Char.ofNat (x * 16 + y) :: qsDecodeChars rest
    | _, _ => '%' :: qsDecodeChars (a :: b :: rest)
  | c :: rest => c :: qsDecodeChars rest
  | [] => []

def qsDecode (s : String) : String :=
  String.mk (qsDecodeChars s.toList)

/-- Record one decoded `key=value` pair the way `querystring.parse`
does: a repeated key collects its values into an array in first-seen
position. -/
def addQsPair (acc : List (String × Js)) (k : String) (v : String) : List (String × Js) :=
  match getField acc k with
  | none => acc ++ [(k, .str v)]
  | some (.str s0) => acc.map (fun p => if p.1 = k then (k, .arr [.str s0, .str v]) else p)
  | some (.arr xs) => acc.map (fun p => if p.1 = k then (k, .arr (xs ++ [.str v])) else p)
  | some _ => acc

/-- Model of Node's `querystring.parse`: split on `&`, split each part
at its first `=` (a part with no `=` maps to the empty string), decode
both sides. -/
def qsParse (s : String) : List (String × Js) :=
  (sSplitOnChar '&' s).foldl
    (fun acc part =>
      if part = "" then acc
      else
        match sSplitOnChar '=' part with
        | [] => acc
        | k :: vs => addQsPair acc (qsDecode k) (qsDecode (String.intercalate "=" vs)))
    []

/-- `typeof body === "object"` for the optional pre-parsed body
(`none` models an absent body, whose `typeof` is `"undefined"`). -/
def isJsObject : Option Js → Bool
  | some v => typeofJs v = "object"
  | none => false

/-- `body instanceof Buffer`. -/
def isBuffer : Option Js → Bool
  | some (.buffer _) => true
  | _ => false

/-- The mapping used when a pre-parsed non-Buffer object body is taken
verbatim: `body === null ? {} : body as Record<string, unknown>`. -/
def preparsedFields : Option Js → List (String × Js)
  | some .null => []
  | some v => objFields v
  | none => []

/-- The `jsonObjRegex` test of `parse-body.ts`: the first character
after `[ \t\n\r]*` is `{`. -/
def jsonObjTest (s : String) : Bool :=
  match dropWs s.toList with
  | '{' :: _ => true
  | _ => false

/-- The media-type dispatch of `parseBody` on a decoded raw body. -/
def interpretRaw (typeInfo : ParsedMediaType) (rawBody : String) :
    Except HErr (List (String × Js)) :=
  if typeInfo.type = "application/graphql" then .ok [("query", .str rawBody)]
  else if typeInfo.type = "application/json" then
    if jsonObjTest rawBody then
      match jsonParse rawBody with
      | some v => .ok (objFields v)
      | none => .error .malformedBody
    else .error .malformedBody
  else if typeInfo.type = "application/x-www-form-urlencoded" then
    .ok (qsParse rawBody)
  else .ok []

/-- The request as the parameter-extraction code sees it: method, the
query-string pairs of the URL (their extraction by `URLSearchParams` is
a platform collaborator), and the headers (Node lowercases names). -/
structure RawRequest where
  method : String
  urlParams : List (String × String)
  headers : List (String × String)

/-- Embedding of `parseBody` (`parse-body.ts`), in the code's order: a
pre-parsed non-Buffer object body is used verbatim (`null` becomes the
empty mapping); no `Content-Type` header yields the empty mapping; a
pre-parsed string body with type `application/graphql` becomes the
query; any other truthy pre-parsed body yields the empty mapping; only
then is the raw stream decoded and interpreted by media type. -/
def parseBody (getB : GetBody) (req : RawRequest) (body : Option Js) :
    Except HErr (List (String × Js)) :=
  if isJsObject body ∧ ¬ isBuffer body then
    .ok (preparsedFields body)
  else
    match sget req.headers "content-type" with
    | none => .ok []
    | some ct =>
      let typeInfo := contentTypeParse ct
      let rawPath : Except HErr (List (String × Js)) := do
        let rawBody ← readBody getB req.headers typeInfo
        interpretRaw typeInfo rawBody
      match body with
      | some (.str s) =>
        if typeInfo.type = "application/graphql" then .ok [("query", .str s)]
        else if s = "" then rawPath
        else .ok []
      | some v => if jsTruthy v then .ok [] else rawPath
      | none => rawPath

/-! ### Parameter resolution (`graphql-param.ts`) -/

/-- The canonical extracted request parameters. `query` and
`operationName` are `Option String` because the code's `typeof` guards
leave exactly a string or `null`; `variables` holds whatever JavaScript
value the resolution leaves in the variable (with `none` for `null`),
which the code does **not** constrain to a mapping after JSON decoding. -/
structure GraphQLParams where
  query : Option String
  «variables» : Option Js
  operationName : Option String
  raw : Bool

/-- `urlData.get("query") ?? bodyData.query`, then the `typeof`-string
guard: the resolved `query`. -/
def resolveQuery (url : List (String × String)) (bodyData : List (String × Js)) :
    Option String :=
  let q : Option Js := match sget url "query" with
    | some s => some (.str s)
    | none => getField bodyData "query"
  match q with
  | some (.str s) => some s
  | _ => none

/-- `urlData.get("operationName") ?? bodyData.operationName`, then the
`typeof`-string guard. -/
def resolveOperationName (url : List (String × String)) (bodyData : List (String × Js)) :
    Option String :=
  let q : Option Js := match sget url "operationName" with
    | some s => some (.str s)
    | none => getField bodyData "operationName"
  match q with
  | some (.str s) => some s
  | _ => none

/-- `urlData.get("variables") ?? bodyData.variables`: the value the
variables guards inspect. -/
def rawVariablesValue (url : List (String × String)) (bodyData : List (String × Js)) :
    Option Js :=
  match sget url "variables" with
  | some s => some (.str s)
  | none => getField bodyData "variables"

/-- JavaScript `null` normalised to `none`. -/
def nonNull : Js → Option Js
  | .null => none
  | v => some v

/-- The variables branch of `getGraphQLParams`: a string value is
JSON-decoded (a decode failure throws the 400 invalid-variables error)
and the decoded value is kept as-is; otherwise a value that is not
`typeof "object"` becomes `null`. -/
def resolveVariables (url : List (String × String)) (bodyData : List (String × Js)) :
    Except HErr (Option Js) :=
  match rawVariablesValue url bodyData with
  | some (.str s) =>
    match jsonParse s with
    | some v => .ok (nonNull v)
    | none => .error .invalidVariables
  | some v => if typeofJs v = "object" then .ok (nonNull v) else .ok none
  | none => .ok none

/-- `urlData.get("raw") !== null || bodyData.raw !== undefined`. -/
def resolveRaw (url : List (String × String)) (bodyData : List (String × Js)) : Bool :=
  (sget url "raw").isSome || (getField bodyData "raw").isSome

/-- The pure merge of query-string and body parameters performed by
`getGraphQLParams` after `parseBody`. -/
def resolveParams (url : List (String × String)) (bodyData : List (String × Js)) :
    Except HErr GraphQLParams :=
  let query := resolveQuery url bodyData
  match resolveVariables url bodyData with
  | .error e => .error e
  | .ok vars =>
    let operationName := resolveOperationName url bodyData
    let raw := resolveRaw url bodyData
    .ok { query := query, «variables» := vars, operationName := operationName, raw := raw }

/-- Embedding of `getGraphQLParams` (`graphql-param.ts`): interpret the
body, then merge with the query-string pairs. -/
def getGraphQLParams (getB : GetBody) (req : RawRequest) (body : Option Js) :
    Except HErr GraphQLParams := do
  let bodyData ← parseBody getB req body
  resolveParams req.urlParams bodyData

/-! ### The operation pipeline (`parse-query.ts`) and response shaping
(`index.ts`)

The GraphQL engine (`graphql-js`) is an external collaborator; it enters
the embedding as the function fields of `Engine`. A document is
abstracted to the list of its operation definitions — exactly what
`getOperationAST` inspects. -/

/-- One operation definition of a parsed document: optional name and
operation kind (`"query"`, `"mutation"`, `"subscription"`). -/
structure OperationDef where
  name : Option String
  operation : String
deriving DecidableEq

/-- A parsed document, abstracted to its operation definitions. -/
def Document : Type := List OperationDef

/-- Model of `graphql-js`'s `getOperationAST` (external collaborator,
per its documented semantics, quoted by the spec): the operation named
by `operationName`, or with no `operationName` the document's sole
operation, else `null`. -/
def getOperationAST (doc : Document) (operationName : Option String) :
    Option OperationDef :=
  match operationName with
  | some n => doc.find? (fun op => op.name = some n)
  | none =>
    match doc with
    | [op] => some op
    | _ => none

/-- An execution result as the response shaping reads it: optional
`data`, `errors` (empty list for an absent field), optional
`extensions`. -/
structure ExecResult where
  data : Option Js := none
  errors : List String := []
  extensions : Option Js := none

/-- The external GraphQL engine, specialised to one request's schema,
rules, root value and context: schema validation errors, `parse`,
`validate` (with the default rules extended by caller rules), and
`execute` (taking variables and operation name; `Except.error` is a
context-construction throw). -/
structure Engine where
  validateSchemaErrors : List String
  parse : String → Except String Document
  validate : Document → List String
  execute : Document → Option Js → Option String → Except String ExecResult

/-- What a non-throwing run of `parseQuery` leaves behind: the response
status it assigned and the result (plus the document, when execution was
reached). -/
structure PQOk where
  status : Nat
  result : ExecResult
  document : Option Document

/-- `!query` for the resolved query: `null` or the empty string. -/
def queryFalsy : Option String → Bool
  | none => true
  | some s => s = ""

/-- Embedding of `parseQuery` (`parse-query.ts`), in the code's order:
absent/empty query throws 400; schema validation errors give a 500
outcome; a parse failure gives a 400 outcome; validation errors give a
400 outcome; on GET a resolved non-`query` operation throws 405 with
`Allow: POST`; then `execute` runs, a context throw giving a 400
outcome and success a 200 outcome. -/
def parseQuery (eng : Engine) (method : String) (params : GraphQLParams) :
    Except HErr PQOk :=
  match params.query with
  | none => .error .noQuery
  | some q =>
    if q = "" then .error .noQuery
    else if eng.validateSchemaErrors ≠ [] then
      .ok ⟨500, { errors := eng.validateSchemaErrors }, none⟩
    else
      match eng.parse q with
      | .error e => .ok ⟨400, { errors := [e] }, none⟩
      | .ok doc =>
        if eng.validate doc ≠ [] then
          .ok ⟨400, { errors := eng.validate doc }, none⟩
        else
          let getBlocked : Option String :=
            if method = "GET" then
              match getOperationAST doc params.operationName with
              | some op => if op.operation ≠ "query" then some op.operation else none
              | none => none
            else none
          match getBlocked with
          | some op =>
            .error (.methodNotAllowed "POST"
              ("Can only perform a " ++ op ++ " operation from a POST request."))
          | none =>
            match eng.execute doc params.«variables» params.operationName with
            | .ok r => .ok ⟨200, r, some doc⟩
            | .error e => .ok ⟨400, { errors := [e] }, none⟩

/-- A caller-supplied extensions function, already closed over the
request context: it receives the document, variables, operation name and
result and returns the metadata value (`index.ts` passes these as the
`RequestInfo` object). -/
def ExtensionsFn : Type :=
  Option Document → Option Js → Option String → ExecResult → Js

/-- The extensions step of `graphqlHTTP`: if a function was provided,
its return value is attached as `extensions` when it is a truthy value
of object type (`if (extensions && typeof extensions === "object")`). -/
def applyExtensions (extFn : Option ExtensionsFn) (doc : Option Document)
    (vars : Option Js) (opName : Option String) (r : ExecResult) : ExecResult :=
  match extFn with
  | some f =>
    let e := f doc vars opName r
    if jsTruthy e ∧ typeofJs e = "object" then { r with extensions := some e } else r
  | none => r

/-- The `try`/`catch` of `graphqlHTTP` that creates the outcome: run
parameter extraction, the operation pipeline and the extensions step; a
thrown failure is caught and becomes `(error.status, {errors: [error]})`.
The pair is the response status as first set and the result object. -/
def createOutcome (eng : Engine) (getB : GetBody) (req : RawRequest)
    (body : Option Js) (extFn : Option ExtensionsFn) : Nat × ExecResult :=
  match (do
      let params ← getGraphQLParams getB req body
      let pq ← parseQuery eng req.method params
      pure (params, pq) : Except HErr (GraphQLParams × PQOk)) with
  | .ok (params, pq) =>
    (pq.status,
      applyExtensions extFn pq.document params.«variables» params.operationName pq.result)
  | .error e => (e.status, { errors := [e.message] })

/-- `!result.data`: the outcome carries a (truthy) data value. -/
def hasData (r : ExecResult) : Bool :=
  match r.data with
  | some v => jsTruthy v
  | none => false

/-- The single post-processing rule of `graphqlHTTP`: a 200 status with
no data in the result is escalated to 500. -/
def postStatus (status : Nat) (r : ExecResult) : Nat :=
  if status = 200 ∧ ¬ hasData r then 500 else status

/-- Embedding of the `graphqlHTTP` middleware body (`index.ts`): reject
methods other than GET/POST with a thrown 405 carrying
`Allow: GET, POST`; otherwise create the outcome, apply the one status
post-processing rule, and map each error through the (caller-supplied or
default) error formatter. Options are already resolved into `eng`,
`extFn` and `fmtErr` (the `parseOptions`/schema configuration checks are
out of the claims' scope). The returned pair is the final response
status and the response body before JSON serialization. -/
def runMiddleware (eng : Engine) (getB : GetBody) (req : RawRequest)
    (body : Option Js) (extFn : Option ExtensionsFn) (fmtErr : String → String) :
    Except HErr (Nat × ExecResult) :=
  if req.method ≠ "GET" ∧ req.method ≠ "POST" then
    .error (.methodNotAllowed "GET, POST" "GraphQL only supports GET and POST requests.")
  else
    let c := createOutcome eng getB req body extFn
    .ok (postStatus c.1 c.2, { c.2 with errors := c.2.errors.map fmtErr })

/-! ### Concrete fixtures used by witnesses and counterexamples -/

/-- A stream reader that successfully yields a fixed text. -/
def constGetBody (s : String) : GetBody := fun _ _ _ _ => .ok s

/-- An engine whose schema fails validation (every other hook is
unreachable behind the 500 outcome). -/
def invalidSchemaEngine : Engine where
  validateSchemaErrors := ["Schema is invalid."]
  parse := fun _ => .error "unreachable"
  validate := fun _ => []
  execute := fun _ _ _ => .error "unreachable"

/-- A query string binding all three keys, two of them to empty text. -/
def allKeysUrl : List (String × String) :=
  [("query", ""), ("variables", "{}"), ("operationName", "")]

/-- A body mapping that also binds all three keys. -/
def allKeysBody : List (String × Js) :=
  [("query", .str "body"), ("variables", .str "17"), ("operationName", .str "x")]

/-- A request with no `Content-Type` header and `variables=not json` in
its query string. -/
def badVarsReq : RawRequest :=
  { method := "POST", urlParams := [("variables", "not json")], headers := [] }

/-- A request whose query string has `variables` bound to empty text and
whose body is `application/json`. -/
def emptyVarsJsonReq : RawRequest :=
  { method := "POST", urlParams := [("variables", "")],
    headers := [("content-type", "application/json")] }

/-- An engine for a schema whose document holds one mutation named
`doIt`, executing successfully. -/
def mutationEngine : Engine where
  validateSchemaErrors := []
  parse := fun _ => .ok [⟨some "doIt", "mutation"⟩]
  validate := fun _ => []
  execute := fun _ _ _ => .ok { data := some (.obj [("doIt", .bool true)]) }

/-- Parameters naming the mutation `doIt`. -/
def mutationParams : GraphQLParams :=
  { query := some "mutation doIt { x }", «variables» := none,
    operationName := some "doIt", raw := false }

/-- A POST request declaring a JSON body. -/
def jsonReq : RawRequest :=
  { method := "POST", urlParams := [], headers := [("content-type", "application/json")] }

/-- A media type with an unsupported charset parameter. -/
def asciiTypeInfo : ParsedMediaType :=
  { type := "application/json", parameters := [("charset", "ascii")] }

/-- A media type with a supported (UTF) charset parameter. -/
def utf16TypeInfo : ParsedMediaType :=
  { type := "application/json", parameters := [("charset", "UTF-16")] }

/-- An engine whose sole query operation executes to a data object. -/
def okEngine : Engine where
  validateSchemaErrors := []
  parse := fun _ => .ok [⟨none, "query"⟩]
  validate := fun _ => []
  execute := fun _ _ _ => .ok { data := some (.obj [("hello", .str "world")]) }

/-- A GET request carrying its query in the query string. -/
def okReq : RawRequest :=
  { method := "GET", urlParams := [("query", "{ hello }")], headers := [] }

/-! ### The claims -/

/-! ### Concrete fixtures used by witnesses and counterexamples -/

/-- C1: the claim puts the schema validity check (500) before the query
presence check (400). The code checks `!query` first: with an absent
query and an invalid schema, `parseQuery` throws the 400
`Must provide query string.` error instead of producing the 500 outcome. -/
theorem c1_counterexample :
    parseQuery invalidSchemaEngine "POST" ⟨none, none, none, false⟩ = .error .noQuery ∧
    HErr.status .noQuery = 400 ∧ (400 : Nat) ≠ 500 := by
  refine ⟨rfl, rfl, by decide⟩

/-- C1 (amended): the query presence check precedes the schema validity
check: an absent or empty `query` throws the 400 error whatever the
schema validation reports, and a present non-empty `query` with a
failing schema validation produces the 500 outcome. -/
theorem c1_check_order (eng : Engine) (method : String) (params : GraphQLParams) :
    (queryFalsy params.query = true → parseQuery eng method params = .error .noQuery) ∧
    (∀ q, params.query = some q → q ≠ "" → eng.validateSchemaErrors ≠ [] →
      parseQuery eng method params =
        .ok ⟨500, { errors := eng.validateSchemaErrors }, none⟩) := by
  constructor
  · intro h
    cases hq : params.query with
    | none => simp [parseQuery, hq]
    | some q =>
      simp [queryFalsy, hq] at h
      simp [parseQuery, hq, h]
  · intro q hq hne hs
    simp [parseQuery, hq, hne, hs]

/-- C1 witness: the amended order at concrete inputs. -/
theorem c1_check_order_witness :
    parseQuery invalidSchemaEngine "POST" ⟨none, none, none, false⟩ = .error .noQuery ∧
    parseQuery invalidSchemaEngine "POST" ⟨some "{ hello }", none, none, false⟩ =
      .ok ⟨500, { errors := ["Schema is invalid."] }, none⟩ := by
  refine ⟨(c1_check_order invalidSchemaEngine "POST" _).1 rfl, ?_⟩
  exact (c1_check_order invalidSchemaEngine "POST" _).2 "{ hello }" rfl (by decide) (by decide)

/-- C2: a key present in the query string short-circuits the body value
for `query`, `variables` and `operationName`, even when the query-string
value is empty text: the resolved component equals the query-string
value (for the textual components) and is independent of the body
mapping. -/
theorem c2_query_string_precedence (url : List (String × String))
    (b1 b2 : List (String × Js)) :
    (∀ qs, sget url "query" = some qs →
      resolveQuery url b1 = some qs ∧ resolveQuery url b1 = resolveQuery url b2) ∧
    (∀ vs, sget url "variables" = some vs →
      resolveVariables url b1 = resolveVariables url b2) ∧
    (∀ os, sget url "operationName" = some os →
      resolveOperationName url b1 = some os ∧
        resolveOperationName url b1 = resolveOperationName url b2) := by
  refine ⟨fun qs h => ?_, fun vs h => ?_, fun os h => ?_⟩
  · simp [resolveQuery, h]
  · simp [resolveVariables, rawVariablesValue, h]
  · simp [resolveOperationName, h]

/-- C2 witness: precedence at a concrete request whose query string
binds all three keys (two of them to empty text) over two different
body mappings. -/
theorem c2_query_string_precedence_witness :
    resolveQuery allKeysUrl allKeysBody = some "" ∧
    resolveVariables allKeysUrl allKeysBody = resolveVariables allKeysUrl [] ∧
    resolveOperationName allKeysUrl allKeysBody = some "" := by
  refine ⟨((c2_query_string_precedence allKeysUrl allKeysBody []).1 "" rfl).1,
    (c2_query_string_precedence allKeysUrl allKeysBody []).2.1 "{}" rfl,
    ((c2_query_string_precedence allKeysUrl allKeysBody []).2.2 "" rfl).1⟩

/-- When body interpretation succeeds, `getGraphQLParams` is exactly the
pure merge over the interpreted mapping. -/
theorem getGraphQLParams_eq_resolve (getB : GetBody) (req : RawRequest) (body : Option Js)
    (bodyData : List (String × Js)) (hb : parseBody getB req body = .ok bodyData) :
    getGraphQLParams getB req body = resolveParams req.urlParams bodyData := by
  unfold getGraphQLParams
  rw [hb]
  rfl

/-- C3: whenever body interpretation succeeds and the resolved
`variables` value (query string first, else body) is text that
`JSON.parse` rejects, the whole parameter resolution fails with the 400
`Variables are invalid JSON.` error — the request's content type plays
no role. -/
theorem c3_invalid_variables_text (getB : GetBody) (req : RawRequest) (body : Option Js)
    (bodyData : List (String × Js)) (s : String)
    (hb : parseBody getB req body = .ok bodyData)
    (hv : rawVariablesValue req.urlParams bodyData = some (.str s))
    (hj : jsonParse s = none) :
    getGraphQLParams getB req body = .error .invalidVariables ∧
    HErr.status .invalidVariables = 400 := by
  constructor
  · rw [getGraphQLParams_eq_resolve getB req body bodyData hb]
    simp [resolveParams, resolveVariables, hv, hj]
  · rfl

/-- C3 witness: the invalid-variables failure at a concrete request. -/
theorem c3_invalid_variables_text_witness :
    getGraphQLParams (constGetBody "") badVarsReq none = .error .invalidVariables := by
  exact (c3_invalid_variables_text (constGetBody "") badVarsReq none [] "not json"
    rfl rfl rfl).1

/-- C4 counterexample: with `variables=3` in the query string the code
JSON-decodes the text `3` and keeps the resulting number — the produced
`GraphQLParams` carries a `variables` value that is not a mapping, so
the data-model invariant does not hold as claimed. -/
theorem c4_counterexample :
    resolveParams [("variables", "3")] [] =
      .ok { query := none, «variables» := some (.num 3 0), operationName := none,
            raw := false } ∧
    typeofJs (.num 3 0) = "number" := by
  exact ⟨rfl, rfl⟩

/-- C4 (amended): `query` and `operationName` are absent-or-text by the
`typeof` guards; for `variables`, a value that is neither text nor of
JavaScript object type becomes absent, but a text value is replaced by
its JSON decoding verbatim — possibly a number, boolean, text or array,
so the mapping invariant is not enforced after the decoding step — and
object-typed values (including arrays) are kept. -/
theorem c4_variables_guard (url : List (String × String)) (bodyData : List (String × Js)) :
    (∀ p, resolveParams url bodyData = .ok p →
      resolveVariables url bodyData = .ok p.«variables» ∧
      p.query = resolveQuery url bodyData ∧
      p.operationName = resolveOperationName url bodyData) ∧
    (rawVariablesValue url bodyData = none → resolveVariables url bodyData = .ok none) ∧
    (∀ v, rawVariablesValue url bodyData = some v → typeofJs v ≠ "string" →
      typeofJs v ≠ "object" → resolveVariables url bodyData = .ok none) ∧
    (∀ v, rawVariablesValue url bodyData = some v → typeofJs v = "object" →
      resolveVariables url bodyData = .ok (nonNull v)) ∧
    (∀ s v, rawVariablesValue url bodyData = some (.str s) → jsonParse s = some v →
      resolveVariables url bodyData = .ok (nonNull v)) := by
  refine ⟨fun p hp => ?_, fun h => ?_, fun v hv hs ho => ?_, fun v hv ho => ?_,
    fun s v hv hj => ?_⟩
  · unfold resolveParams at hp
    cases hrv : resolveVariables url bodyData with
    | error e => rw [hrv] at hp; exact absurd hp (by simp)
    | ok vars =>
      rw [hrv] at hp
      simp only [Except.ok.injEq] at hp
      subst hp
      exact ⟨rfl, rfl, rfl⟩
  · simp [resolveVariables, h]
  · cases v <;> simp_all [resolveVariables, typeofJs]
  · cases v <;> simp_all [resolveVariables, typeofJs, nonNull]
  · simp [resolveVariables, hv, hj]

/-- C4 witness: the guards at concrete inputs — an absent value, a
boolean body value (dropped), an array body value (kept), and the
decoded text `3` (kept as a number). -/
theorem c4_variables_guard_witness :
    resolveVariables [] [] = .ok none ∧
    resolveVariables [] [("variables", .bool true)] = .ok none ∧
    resolveVariables [] [("variables", .arr [.num 1 0])] = .ok (some (.arr [.num 1 0])) ∧
    resolveVariables [("variables", "3")] [] = .ok (some (.num 3 0)) := by
  refine ⟨(c4_variables_guard [] []).2.1 rfl,
    (c4_variables_guard [] [("variables", .bool true)]).2.2.1 (.bool true) rfl
      (by decide) (by decide),
    (c4_variables_guard [] [("variables", .arr [.num 1 0])]).2.2.2.1 (.arr [.num 1 0])
      rfl rfl,
    (c4_variables_guard [("variables", "3")] []).2.2.2.2 "3" (.num 3 0) rfl rfl⟩

/-- C10 counterexample: with `?variables=` present, a raw
`application/json` body that is not JSON makes resolution fail with the
malformed-body error (`POST body sent invalid JSON.`), not the
invalid-variables error — the failure is not independent of the body. -/
theorem c10_counterexample :
    getGraphQLParams (constGetBody "not json") emptyVarsJsonReq none =
      .error .malformedBody ∧
    HErr.malformedBody ≠ HErr.invalidVariables ∧
    HErr.message .malformedBody ≠ HErr.message .invalidVariables := by
  refine ⟨rfl, by decide, by decide⟩

/-- C10 (amended): with `?variables=` present, whenever body
interpretation itself succeeds the resolution fails with the 400
invalid-variables error regardless of the interpreted body mapping (the
empty text takes precedence and its JSON decoding fails); a body whose
interpretation fails yields that failure instead. -/
theorem c10_empty_variables (getB : GetBody) (req : RawRequest) (body : Option Js)
    (bodyData : List (String × Js))
    (hv : sget req.urlParams "variables" = some "")
    (hb : parseBody getB req body = .ok bodyData) :
    getGraphQLParams getB req body = .error .invalidVariables ∧
    HErr.status .invalidVariables = 400 := by
  have hj : jsonParse "" = none := rfl
  constructor
  · rw [getGraphQLParams_eq_resolve getB req body bodyData hb]
    simp [resolveParams, resolveVariables, rawVariablesValue, hv, hj]
  · rfl

/-- C10 witness: the empty `variables` text failing at a concrete
request whose body interpretation succeeds. -/
theorem c10_empty_variables_witness :
    getGraphQLParams (constGetBody "\x7b\"a\": 1\x7d") emptyVarsJsonReq none =
      .error .invalidVariables := by
  exact (c10_empty_variables (constGetBody "\x7b\"a\": 1\x7d") emptyVarsJsonReq none
    [("a", .num 1 0)] rfl rfl).1

/-- C5: on GET, once schema validation, parsing and validation pass, a
resolved operation whose kind is not `query` makes `parseQuery` throw
the 405 `MethodNotAllowed` error carrying `Allow: POST`; the identical
parameters over POST skip the operation-kind check and reach execution. -/
theorem c5_get_operation_kind (eng : Engine) (params : GraphQLParams) (q : String)
    (doc : Document) (op : OperationDef) (r : ExecResult)
    (hq : params.query = some q) (hne : q ≠ "")
    (hs : eng.validateSchemaErrors = [])
    (hp : eng.parse q = .ok doc)
    (hv : eng.validate doc = [])
    (hop : getOperationAST doc params.operationName = some op)
    (hk : op.operation ≠ "query")
    (hx : eng.execute doc params.«variables» params.operationName = .ok r) :
    parseQuery eng "GET" params =
      .error (.methodNotAllowed "POST"
        ("Can only perform a " ++ op.operation ++ " operation from a POST request.")) ∧
    (HErr.methodNotAllowed "POST"
      ("Can only perform a " ++ op.operation ++ " operation from a POST request.")).status
      = 405 ∧
    parseQuery eng "POST" params = .ok ⟨200, r, some doc⟩ := by
  refine ⟨?_, rfl, ?_⟩
  · simp [parseQuery, hq, hne, hs, hp, hv, hop, hk]
  · simp [parseQuery, hq, hne, hs, hp, hv, hx]

/-- C5 witness: the mutation request rejected over GET with 405 and
`Allow: POST`, succeeding over POST. -/
theorem c5_get_operation_kind_witness :
    parseQuery mutationEngine "GET" mutationParams =
      .error (.methodNotAllowed "POST"
        "Can only perform a mutation operation from a POST request.") ∧
    parseQuery mutationEngine "POST" mutationParams =
      .ok ⟨200, { data := some (.obj [("doIt", .bool true)]) },
        some [⟨some "doIt", "mutation"⟩]⟩ := by
  refine ⟨?_, ?_⟩
  · exact (c5_get_operation_kind mutationEngine mutationParams "mutation doIt { x }"
      [⟨some "doIt", "mutation"⟩] ⟨some "doIt", "mutation"⟩
      { data := some (.obj [("doIt", .bool true)]) }
      rfl (by decide) rfl rfl rfl rfl (by decide) rfl).1
  · exact (c5_get_operation_kind mutationEngine mutationParams "mutation doIt { x }"
      [⟨some "doIt", "mutation"⟩] ⟨some "doIt", "mutation"⟩
      { data := some (.obj [("doIt", .bool true)]) }
      rfl (by decide) rfl rfl rfl rfl (by decide) rfl).2.2

/-- C6: for a request with `Content-Type: application/json` and no
pre-parsed body whose decoded stream text does not open (after JSON
whitespace) with `{`, `parseBody` fails with the 400
`POST body sent invalid JSON.` error; a body that does open with `{`
but fails JSON parsing yields the same error. -/
theorem c6_malformed_json_body (getB : GetBody) (req : RawRequest) (ct s : String)
    (hct : sget req.headers "content-type" = some ct)
    (hty : (contentTypeParse ct).type = "application/json")
    (hread : readBody getB req.headers (contentTypeParse ct) = .ok s) :
    (jsonObjTest s = false → parseBody getB req none = .error .malformedBody) ∧
    (jsonObjTest s = true → jsonParse s = none →
      parseBody getB req none = .error .malformedBody) ∧
    HErr.status .malformedBody = 400 := by
  have hgraphql : (contentTypeParse ct).type ≠ "application/graphql" := by
    rw [hty]; decide
  refine ⟨fun hobj => ?_, fun hobj hjson => ?_, rfl⟩
  · simp [parseBody, isJsObject, isBuffer, hct, interpretRaw, hty, hread, hobj,
      hgraphql, Except.bind, bind]
  · simp [parseBody, isJsObject, isBuffer, hct, interpretRaw, hty, hread, hobj, hjson,
      hgraphql, Except.bind, bind]

/-- C6 witness: both malformed-body cases at concrete requests — a
stream not starting with `{`, and a stream starting with `{` that is
not valid JSON. -/
theorem c6_malformed_json_body_witness :
    parseBody (constGetBody "not json") jsonReq none = .error .malformedBody ∧
    parseBody (constGetBody "\x7b\"a\": ") jsonReq none = .error .malformedBody := by
  refine ⟨?_, ?_⟩
  · exact (c6_malformed_json_body (constGetBody "not json") jsonReq
      "application/json" "not json" rfl rfl rfl).1 rfl
  · exact (c6_malformed_json_body (constGetBody "\x7b\"a\": ") jsonReq
      "application/json" "\x7b\"a\": " rfl rfl rfl).2.1 rfl rfl

/-- The catch around `getBody` never produces the 415
unsupported-charset error: its re-tagged failures are the 400
charset-mismatch and invalid-body errors. -/
theorem readBodyStream_no_charset_error (getB : GetBody) (encoding charset : String)
    (length : Option String) (c : String) :
    readBodyStream getB encoding charset length ≠ .error (.unsupportedCharset c) := by
  unfold readBodyStream
  rcases getB encoding charset length (100 * 1024) with e | s
  · cases e <;> simp
  · simp

/-- C7: `readBody` fails with the 415 unsupported-charset error exactly
when the charset resolved from the `Content-Type` parameters (lowercased,
defaulting to `utf-8`) does not start with `utf-`; every charset starting
with `utf-` passes this check — no later step of `readBody` can produce
that error. -/
theorem c7_charset_check (getB : GetBody) (headers : List (String × String))
    (typeInfo : ParsedMediaType) :
    (sStartsWith (resolvedCharset typeInfo) "utf-" = false →
      readBody getB headers typeInfo =
        .error (.unsupportedCharset (sToUpper (resolvedCharset typeInfo))) ∧
      (HErr.unsupportedCharset (sToUpper (resolvedCharset typeInfo))).status = 415) ∧
    (sStartsWith (resolvedCharset typeInfo) "utf-" = true →
      ∀ c, readBody getB headers typeInfo ≠ .error (.unsupportedCharset c)) := by
  constructor
  · intro h
    exact ⟨by simp [readBody, h], rfl⟩
  · intro h c
    unfold readBody
    rw [if_neg (by simp [h])]
    rcases hge : sget headers "content-encoding" with _ | es <;> simp only [hge]
    · rw [if_pos (by simp)]
      exact readBodyStream_no_charset_error getB _ _ _ c
    · by_cases he : sToLower es = "identity" ∨ sToLower es = "deflate" ∨ sToLower es = "gzip"
      · rw [if_pos he]
        exact readBodyStream_no_charset_error getB _ _ _ c
      · rw [if_neg he]
        simp

/-- C7 witness: `charset=ascii` fails with the 415 error; `charset=UTF-16`
never produces the unsupported-charset error. -/
theorem c7_charset_check_witness :
    readBody (constGetBody "x") [] asciiTypeInfo =
      .error (.unsupportedCharset "ASCII") ∧
    readBody (constGetBody "x") [] utf16TypeInfo ≠
      .error (.unsupportedCharset "UTF-16") := by
  refine ⟨((c7_charset_check (constGetBody "x") [] asciiTypeInfo).1 rfl).1, ?_⟩
  exact (c7_charset_check (constGetBody "x") [] utf16TypeInfo).2 rfl "UTF-16"

/-- C8 counterexample: a pre-parsed Buffer body is not decoded like an
unparsed raw stream — with the same JSON request, an absent pre-parsed
body decodes the stream into a `query` mapping, while a Buffer body
yields the empty mapping. -/
theorem c8_counterexample :
    parseBody (constGetBody "\x7b\"query\": \"\x7b hello \x7d\"\x7d") jsonReq (some (.buffer [123])) =
      .ok [] ∧
    parseBody (constGetBody "\x7b\"query\": \"\x7b hello \x7d\"\x7d") jsonReq none =
      .ok [("query", .str "{ hello }")] ∧
    ([] : List (String × Js)) ≠ [("query", .str "{ hello }")] := by
  refine ⟨rfl, rfl, by simp⟩

/-- C8 (amended): a pre-parsed Buffer body escapes the verbatim
passthrough (the `instanceof Buffer` test), but instead of proceeding to
stream decoding it always falls into the unrecognised-pre-parsed-body
rule: `parseBody` returns the empty mapping whatever the content type
and stream. -/
theorem c8_buffer_empty (getB : GetBody) (req : RawRequest) (bs : List Nat) :
    parseBody getB req (some (.buffer bs)) = .ok [] := by
  unfold parseBody
  simp [isJsObject, isBuffer, jsTruthy]
  cases sget req.headers "content-type" <;> simp

/-- C9: response post-processing touches the status exactly once — a
200 status whose outcome carries no data is escalated to 500, any other
status/outcome pair is left unchanged, the final status of the
middleware is exactly the post-processed creation status (no other rule
changes it), and a successful execution carrying data with no errors
keeps status 200 with the execution result as the body. -/
theorem c9_status_escalation (eng : Engine) (getB : GetBody) (req : RawRequest)
    (body : Option Js) (extFn : Option ExtensionsFn) (fmtErr : String → String) :
    (∀ s r, s = 200 → hasData r = false → postStatus s r = 500) ∧
    (∀ s r, s ≠ 200 ∨ hasData r = true → postStatus s r = s) ∧
    (req.method = "GET" ∨ req.method = "POST" →
      runMiddleware eng getB req body extFn fmtErr =
        .ok (postStatus (createOutcome eng getB req body extFn).1
              (createOutcome eng getB req body extFn).2,
          { (createOutcome eng getB req body extFn).2 with
              errors := (createOutcome eng getB req body extFn).2.errors.map fmtErr })) ∧
    (∀ r, createOutcome eng getB req body extFn = (200, r) → hasData r = true →
      r.errors = [] → req.method = "GET" ∨ req.method = "POST" →
      runMiddleware eng getB req body extFn fmtErr = .ok (200, r)) := by
  refine ⟨fun s r hs hd => ?_, fun s r h => ?_, fun hm => ?_, fun r hc hd he hm => ?_⟩
  · simp [postStatus, hs, hd]
  · rcases h with h | h <;> simp [postStatus, h]
  · unfold runMiddleware
    rcases hm with hm | hm <;> simp [hm]
  · unfold runMiddleware
    rcases hm with hm | hm <;>
      · simp only [hm]
        rw [if_neg (by simp)]
        simp [hc, postStatus, hd, he]
        cases r
        simp_all

/-- C9 witness: the escalation rule, the leave-alone rule, and the
successful 200 response at concrete inputs. -/
theorem c9_status_escalation_witness :
    postStatus 200 { data := none, errors := ["boom"] } = 500 ∧
    postStatus 404 { data := none, errors := ["nope"] } = 404 ∧
    runMiddleware okEngine (constGetBody "") okReq none none id =
      .ok (200, { data := some (.obj [("hello", .str "world")]) }) := by
  refine ⟨(c9_status_escalation okEngine (constGetBody "") okReq none none id).1
      200 { data := none, errors := ["boom"] } rfl rfl,
    (c9_status_escalation okEngine (constGetBody "") okReq none none id).2.1
      404 { data := none, errors := ["nope"] } (Or.inl (by decide)),
    (c9_status_escalation okEngine (constGetBody "") okReq none none id).2.2.2
      { data := some (.obj [("hello", .str "world")]) } rfl rfl rfl (Or.inl rfl)⟩

end KoaGraphql
